import Mathlib

/-!
Verification of the note-service CRUD contract exercised by the Playwright
test suites (milestone2/3/4), together with the test harness's request
plumbing (`makeRequest`, the PUT-then-PATCH update fallback).

The repository under verification holds only black-box tests; the note
service itself is external. The service is therefore modelled from the
specification (spec.md §3, §4, §6): notes with generated ids and
timestamps, list/create on the collection endpoint, read/update/delete on
the single-note endpoint, and the test-only bulk reset. Timestamps are
modelled as a logical clock (a natural number that advances on every
mutating call); ids, opaque strings in the spec, are modelled as naturals
issued by a counter, so that only generation and equality are visible,
exactly as the contract uses them.
-/

namespace NoteApp

/-- Modelled from the spec: the Note record of spec.md §3 — generated `id`
(opaque, here a counter-issued natural), required non-empty `title`,
optional `content`, ordered `tags` and `attachments` defaulting to empty,
and `createdAt`/`updatedAt` timestamps (modelled as logical-clock values). -/
structure Note where
  id : Nat
  title : String
  content : String
  tags : List String
  attachments : List String
  createdAt : Nat
  updatedAt : Nat
deriving Repr, DecidableEq

/-- Modelled from the spec: the state of the external note service — the
ordered collection of persisted notes, the id counter, and the logical
clock used for timestamps. -/
structure ServerState where
  notes : List Note
  nextId : Nat
  clock : Nat
deriving Repr, DecidableEq

/-- Modelled from the spec: the `title` field of a submitted JSON body —
absent, a string value, or present but not a string (spec.md §4.1 rejects
"absent, empty, or not a string"). -/
inductive TitleField
  | absent
  | str (s : String)
  | nonString
deriving Repr, DecidableEq

/-- Modelled from the spec: a candidate note body as submitted to POST or
PUT/PATCH; every field other than the scrutinised title is optional. -/
structure NoteInput where
  title : TitleField
  content : Option String
  tags : Option (List String)
  attachments : Option (List String)
deriving Repr, DecidableEq

/-- Modelled from the spec: the id segment of a single-note URL — either a
well-formed id (one the id generator could issue) or a syntactically
malformed string such as `invalid-format-!!!`, which never resolves. -/
inductive ReqId
  | wellFormed (n : Nat)
  | malformed
deriving Repr, DecidableEq

/-- Title validation for create: accepted exactly when the field is a
non-empty string (spec.md §4.1). -/
def validTitle : TitleField → Option String
  | .str s => if s = "" then none else some s
  | _ => none

/-- Result of a call that may carry a single note in its body and mutates
the store. -/
structure NoteResult where
  status : Nat
  body : Option Note
  state : ServerState
deriving Repr, DecidableEq

/-- Result of a call with no interesting body (delete, reset). -/
structure StatusResult where
  status : Nat
  state : ServerState
deriving Repr, DecidableEq

/-- Modelled from the spec: POST /api/Notes (spec.md §4.1) — rejects with
400 when the title is absent, empty, or not a string, leaving the store
untouched; otherwise persists a note with a freshly generated id, both
timestamps set to the current clock, and `tags`/`attachments` echoed as
submitted (empty if omitted), returning it with status 200. -/
def createNote (st : ServerState) (inp : NoteInput) : NoteResult :=
  match validTitle inp.title with
  | none => ⟨400, none, st⟩
  | some t =>
    let note : Note :=
      { id := st.nextId
        title := t
        content := inp.content.getD ""
        tags := inp.tags.getD []
        attachments := inp.attachments.getD []
        createdAt := st.clock
        updatedAt := st.clock }
    ⟨200, some note, ⟨st.notes ++ [note], st.nextId + 1, st.clock + 1⟩⟩

/-- The first stored note carrying the given id, if any. -/
def findNote (st : ServerState) (n : Nat) : Option Note :=
  st.notes.find? (fun nt => nt.id = n)

/-- Modelled from the spec: GET /api/Notes/{id} (spec.md §4.2) — 200 with
the matching note when the id resolves, 404 otherwise, including
syntactically malformed ids. -/
def getNote (st : ServerState) (rid : ReqId) : Nat × Option Note :=
  match rid with
  | .malformed => (404, none)
  | .wellFormed n =>
    match findNote st n with
    | none => (404, none)
    | some nt => (200, some nt)

/-- Modelled from the spec: GET /api/Notes (spec.md §4.1) — the full
ordered collection, status 200 always, even when empty. -/
def getAll (st : ServerState) : Nat × List Note :=
  (200, st.notes)

/-- Modelled from the spec: DELETE /api/Notes/{id} (spec.md §4.2) —
removes the addressed record and returns 200; a non-existent or malformed
id yields 404 and leaves the store untouched. -/
def deleteNote (st : ServerState) (rid : ReqId) : StatusResult :=
  match rid with
  | .malformed => ⟨404, st⟩
  | .wellFormed n =>
    if st.notes.any (fun nt => nt.id = n) then
      ⟨200, ⟨st.notes.filter (fun nt => nt.id ≠ n), st.nextId, st.clock⟩⟩
    else ⟨404, st⟩

/-- The title an update would leave in place: the old title when the field
is absent, the submitted string when non-empty, and no valid title at all
when the update would make it empty or non-string (spec.md §4.2 rejects
updates "when the resulting `title` would be empty"). -/
def resultTitle (old : String) : TitleField → Option String
  | .absent => some old
  | .str s => if s = "" then none else some s
  | .nonString => none

/-- The addressed note after a successful update: submitted fields
replace the old ones, omitted fields are kept, `createdAt` is untouched
and `updatedAt` is refreshed to the current clock (spec.md §3). -/
def applyUpdate (nt : Note) (inp : NoteInput) (now : Nat) (t : String) : Note :=
  { nt with
    title := t
    content := inp.content.getD nt.content
    tags := inp.tags.getD nt.tags
    attachments := inp.attachments.getD nt.attachments
    updatedAt := now }

/-- Modelled from the spec: update of /api/Notes/{id} by the verb the
service implements (spec.md §4.2) — 404 for malformed or unresolved ids,
400 when the resulting title would be empty (store untouched), otherwise
200 with the updated note written back in place. -/
def updateNote (st : ServerState) (rid : ReqId) (inp : NoteInput) : NoteResult :=
  match rid with
  | .malformed => ⟨404, none, st⟩
  | .wellFormed n =>
    match findNote st n with
    | none => ⟨404, none, st⟩
    | some nt =>
      match resultTitle nt.title inp.title with
      | none => ⟨400, none, st⟩
      | some t =>
        let nt2 := applyUpdate nt inp st.clock t
        ⟨200, some nt2,
          ⟨st.notes.map (fun m => if m.id = n then nt2 else m), st.nextId, st.clock + 1⟩⟩

/-- Modelled from the spec: DELETE /api/Notes/reset/all (spec.md §4.3) —
clears all stored notes and returns 200. -/
def resetAll (st : ServerState) : StatusResult :=
  ⟨200, ⟨[], st.nextId, st.clock⟩⟩

/-- The two update verbs the harness probes. -/
inductive Verb
  | put
  | patch
deriving Repr, DecidableEq

/-- Modelled from the spec: which update verb the service implements, and
the status (404 or 405) it answers on the other one (spec.md §4.2:
"service may implement one, with the other returning 404/405"). -/
structure ServiceCfg where
  impl : Verb
  unsupported : Nat
deriving Repr, DecidableEq

/-- Modelled from the spec: dispatch of an update request by verb — the
implemented verb runs `updateNote`, the other answers the configured
404/405 status without touching the store. -/
def dispatchUpdate (cfg : ServiceCfg) (v : Verb) (st : ServerState)
    (rid : ReqId) (inp : NoteInput) : NoteResult :=
  if v = cfg.impl then updateNote st rid inp else ⟨cfg.unsupported, none, st⟩

/-- The harness's update fallback, from milestone2.test.ts lines 147-152:
issue PUT first and, exactly when its status is 404 or 405, retry once
with PATCH; the retry's response is final. -/
def harnessUpdate (cfg : ServiceCfg) (st : ServerState) (rid : ReqId)
    (inp : NoteInput) : NoteResult :=
  let r := dispatchUpdate cfg .put st rid inp
  if r.status = 404 ∨ r.status = 405 then dispatchUpdate cfg .patch r.state rid inp
  else r

/-- An HTTP response as the harness sees it before decoding: a status
code and the raw body text. -/
structure HttpResponse where
  status : Nat
  bodyText : String
deriving Repr, DecidableEq

/-- The body value `makeRequest` hands back: the platform decoder's JSON
value on success, or JavaScript `null` when decoding failed. -/
inductive JsBody (J : Type)
  | null
  | json (j : J)
deriving Repr, DecidableEq

/-- The harness's `makeRequest`, from milestone2.test.ts lines 5-19 (the
identical helper recurs in every suite): the response body is decoded by
the platform JSON decoder — modelled as an arbitrary fallible decoder —
and `.catch(() => null)` maps any decoding failure to a null body;
the pair of the raw status and that body is returned. -/
def makeRequest {J : Type} (decode : String → Except String J)
    (resp : HttpResponse) : Nat × JsBody J :=
  ( resp.status
  , match decode resp.bodyText with
    | .ok j => .json j
    | .error _ => .null )

/-- The well-formedness invariant every reachable service state enjoys:
every stored id is below the counter, titles are non-empty, `createdAt`
never exceeds `updatedAt`, `updatedAt` is below the clock, and ids are
pairwise distinct. -/
def WF (st : ServerState) : Prop :=
  (∀ nt ∈ st.notes,
      nt.id < st.nextId ∧ nt.title ≠ "" ∧
      nt.createdAt ≤ nt.updatedAt ∧ nt.updatedAt < st.clock) ∧
  st.notes.Pairwise (fun a b => a.id ≠ b.id)

/-- The states the service can reach from an empty store through the
modelled operations. -/
inductive Reachable : ServerState → Prop
  | init : Reachable ⟨[], 0, 0⟩
  | create (st : ServerState) (inp : NoteInput) :
      Reachable st → Reachable (createNote st inp).state
  | update (st : ServerState) (rid : ReqId) (inp : NoteInput) :
      Reachable st → Reachable (updateNote st rid inp).state
  | delete (st : ServerState) (rid : ReqId) :
      Reachable st → Reachable (deleteNote st rid).state
  | reset (st : ServerState) :
      Reachable st → Reachable (resetAll st).state

/-- A validated title is never the empty string. -/
theorem validTitle_ne_empty {f : TitleField} {t : String}
    (h : validTitle f = some t) : t ≠ "" := by
  cases f with
  | absent => simp [validTitle] at h
  | nonString => simp [validTitle] at h
  | str s =>
    by_cases hs : s = ""
    · simp [validTitle, hs] at h
    · simp [validTitle, hs] at h
      subst h
      exact hs

/-- A resulting update title is never empty when the old title was not. -/
theorem resultTitle_ne_empty {old : String} {f : TitleField} {t : String}
    (h : resultTitle old f = some t) (hold : old ≠ "") : t ≠ "" := by
  cases f with
  | absent =>
    simp [resultTitle] at h
    subst h
    exact hold
  | nonString => simp [resultTitle] at h
  | str s =>
    by_cases hs : s = ""
    · simp [resultTitle, hs] at h
    · simp [resultTitle, hs] at h
      subst h
      exact hs

/-- find? skips a prefix on which the predicate is everywhere false. -/
theorem find?_skip_head {α : Type} (p : α → Bool) {l1 l2 : List α}
    (h : ∀ a ∈ l1, ¬ p a) : (l1 ++ l2).find? p = l2.find? p := by
  have h1 : l1.find? p = none := List.find?_eq_none.mpr h
  simp [List.find?_append, h1]

/-- With pairwise-distinct ids, find? by id returns exactly the member
note carrying that id. -/
theorem find?_of_mem_unique {l : List Note} {n : Nat} {nt : Note}
    (hmem : nt ∈ l) (hid : nt.id = n)
    (hp : l.Pairwise (fun a b => a.id ≠ b.id)) :
    l.find? (fun m => m.id = n) = some nt := by
  induction l with
  | nil => cases hmem
  | cons a l ih =>
    rw [List.pairwise_cons] at hp
    rcases List.mem_cons.mp hmem with h | hmem2
    · subst h
      simp [List.find?_cons_of_pos, hid]
    · have ha : ¬ (a.id = n) := by
        intro hcontra
        exact hp.1 nt hmem2 (by rw [hcontra, hid])
      rw [List.find?_cons_of_neg _ (by simpa using ha)]
      exact ih hmem2 hp.2

/-- GET by a well-formed id answers 404 when the id resolves nowhere. -/
theorem getNote_of_find_none {st : ServerState} {n : Nat}
    (h : findNote st n = none) : getNote st (.wellFormed n) = (404, none) := by
  simp [getNote, h]

/-- GET by a well-formed id answers 200 with the note find? returns. -/
theorem getNote_of_find_some {st : ServerState} {n : Nat} {nt : Note}
    (h : findNote st n = some nt) : getNote st (.wellFormed n) = (200, some nt) := by
  simp [getNote, h]

/-- Creation preserves the service invariant. -/
theorem wf_create (st : ServerState) (inp : NoteInput) (hwf : WF st) :
    WF (createNote st inp).state := by
  obtain ⟨hall, hpw⟩ := hwf
  cases hv : validTitle inp.title with
  | none => simpa [createNote, hv] using ⟨hall, hpw⟩
  | some t =>
    simp only [createNote, hv]
    constructor
    · intro nt hnt
      rcases List.mem_append.mp hnt with h | h
      · obtain ⟨h1, h2, h3, h4⟩ := hall nt h
        exact ⟨Nat.lt_succ_of_lt h1, h2, h3, Nat.lt_succ_of_lt h4⟩
      · simp only [List.mem_singleton] at h
        subst h
        exact ⟨Nat.lt_succ_self _, validTitle_ne_empty hv, le_refl _, Nat.lt_succ_self _⟩
    · rw [List.pairwise_append]
      refine ⟨hpw, List.pairwise_singleton _ _, ?_⟩
      intro a ha b hb
      simp only [List.mem_singleton] at hb
      subst hb
      have := (hall a ha).1
      simp only []
      omega

/-- Update preserves the service invariant. -/
theorem wf_update (st : ServerState) (rid : ReqId) (inp : NoteInput) (hwf : WF st) :
    WF (updateNote st rid inp).state := by
  obtain ⟨hall, hpw⟩ := hwf
  cases rid with
  | malformed => simpa [updateNote] using ⟨hall, hpw⟩
  | wellFormed n =>
    cases hf : findNote st n with
    | none => simpa [updateNote, hf] using ⟨hall, hpw⟩
    | some nt =>
      cases ht : resultTitle nt.title inp.title with
      | none => simpa [updateNote, hf, ht] using ⟨hall, hpw⟩
      | some t =>
        have hntmem : nt ∈ st.notes := List.mem_of_find?_eq_some hf
        have hntid : nt.id = n := by simpa using List.find?_some hf
        obtain ⟨hid, hti, hca, hua⟩ := hall nt hntmem
        have hfid : ∀ m : Note,
            (if m.id = n then applyUpdate nt inp st.clock t else m).id = m.id := by
          intro m
          by_cases hc : m.id = n
          · simp [hc, applyUpdate, hntid]
          · simp [hc]
        simp only [updateNote, hf, ht]
        constructor
        · intro m2 hm2
          rw [List.mem_map] at hm2
          obtain ⟨m, hm, hfm⟩ := hm2
          obtain ⟨hmid, hmti, hmca, hmua⟩ := hall m hm
          subst hfm
          by_cases hc : m.id = n
          · simp only [hc, if_true]
            refine ⟨?_, resultTitle_ne_empty ht hti, ?_, ?_⟩
            · simpa [applyUpdate, hntid] using hid
            · simp only [applyUpdate]
              omega
            · simp only [applyUpdate]
              omega
          · simp only [hc, if_false]
            exact ⟨hmid, hmti, hmca, Nat.lt_succ_of_lt hmua⟩
        · rw [List.pairwise_map]
          exact hpw.imp (fun {a b} hab => by rw [hfid, hfid]; exact hab)

/-- Deletion preserves the service invariant. -/
theorem wf_delete (st : ServerState) (rid : ReqId) (hwf : WF st) :
    WF (deleteNote st rid).state := by
  obtain ⟨hall, hpw⟩ := hwf
  cases rid with
  | malformed => simpa [deleteNote] using ⟨hall, hpw⟩
  | wellFormed n =>
    by_cases hc : st.notes.any (fun nt => nt.id = n) = true
    · simp only [deleteNote, hc, if_true]
      constructor
      · intro nt hnt
        exact hall nt (List.mem_of_mem_filter hnt)
      · exact hpw.filter _
    · simpa [deleteNote, hc] using ⟨hall, hpw⟩

/-- Every reachable service state satisfies the invariant: ids below the
counter and pairwise distinct, titles non-empty, createdAt ≤ updatedAt,
updatedAt below the clock. -/
theorem reachable_wf (st : ServerState) (h : Reachable st) : WF st := by
  induction h with
  | init => exact ⟨by simp, List.Pairwise.nil⟩
  | create st inp _ ih => exact wf_create st inp ih
  | update st rid inp _ ih => exact wf_update st rid inp ih
  | delete st rid _ ih => exact wf_delete st rid ih
  | reset st _ _ => exact ⟨by simp [resetAll], by simp [resetAll]⟩

/-- C2: a POST whose title is absent, empty, or not a string is answered
with status 400, carries no body, and leaves the stored collection (and
the whole service state) unchanged. -/
theorem create_invalid_title_rejected (st : ServerState) (inp : NoteInput)
    (h : inp.title = .absent ∨ inp.title = .str "" ∨ inp.title = .nonString) :
    (createNote st inp).status = 400 ∧ (createNote st inp).body = none ∧
    (createNote st inp).state = st ∧
    (getAll (createNote st inp).state).2 = (getAll st).2 := by
  have hv : validTitle inp.title = none := by
    rcases h with h | h | h <;> simp [h, validTitle]
  simp [createNote, hv, getAll]

/-- C2 witness: a concrete empty-title POST against a one-note store is
rejected with 400 and changes nothing. -/
theorem create_invalid_title_rejected_witness :
    (createNote ⟨[⟨0, "A", "", [], [], 0, 0⟩], 1, 1⟩ ⟨.str "", some "c", none, none⟩).status = 400 ∧
    (createNote ⟨[⟨0, "A", "", [], [], 0, 0⟩], 1, 1⟩ ⟨.str "", some "c", none, none⟩).body = none ∧
    (createNote ⟨[⟨0, "A", "", [], [], 0, 0⟩], 1, 1⟩ ⟨.str "", some "c", none, none⟩).state =
      ⟨[⟨0, "A", "", [], [], 0, 0⟩], 1, 1⟩ ∧
    (getAll (createNote ⟨[⟨0, "A", "", [], [], 0, 0⟩], 1, 1⟩ ⟨.str "", some "c", none, none⟩).state).2 =
      (getAll (⟨[⟨0, "A", "", [], [], 0, 0⟩], 1, 1⟩ : ServerState)).2 :=
  create_invalid_title_rejected ⟨[⟨0, "A", "", [], [], 0, 0⟩], 1, 1⟩
    ⟨.str "", some "c", none, none⟩ (Or.inr (Or.inl rfl))

/-- C6: GET by id answers 200 with the stored note matching the id when
one is stored (well-formedness gives its uniqueness), and 404 whenever
the id resolves to no stored record, including malformed id formats. -/
theorem get_by_id_contract (st : ServerState) (n : Nat) (nt : Note) :
    (WF st → nt ∈ st.notes → nt.id = n →
      getNote st (.wellFormed n) = (200, some nt)) ∧
    ((∀ m ∈ st.notes, m.id ≠ n) → getNote st (.wellFormed n) = (404, none)) ∧
    getNote st .malformed = (404, none) := by
  refine ⟨?_, ?_, rfl⟩
  · intro hwf hmem hid
    have hf : findNote st n = some nt := find?_of_mem_unique hmem hid hwf.2
    simp [getNote, hf]
  · intro hnone
    have hf : findNote st n = none := by
      rw [findNote, List.find?_eq_none]
      intro m hm
      simpa using hnone m hm
    simp [getNote, hf]

/-- C6 witness: against the concrete one-note store, GET on the stored id
answers 200 with that note, GET on an unassigned id answers 404, and GET
on a malformed id answers 404. -/
theorem get_by_id_contract_witness :
    getNote ⟨[⟨0, "A", "", [], [], 0, 0⟩], 1, 1⟩ (.wellFormed 0) =
      (200, some ⟨0, "A", "", [], [], 0, 0⟩) ∧
    getNote ⟨[⟨0, "A", "", [], [], 0, 0⟩], 1, 1⟩ (.wellFormed 7) = (404, none) ∧
    getNote ⟨[⟨0, "A", "", [], [], 0, 0⟩], 1, 1⟩ .malformed = (404, none) :=
  ⟨(get_by_id_contract ⟨[⟨0, "A", "", [], [], 0, 0⟩], 1, 1⟩ 0 ⟨0, "A", "", [], [], 0, 0⟩).1
      ⟨by simp, by simp⟩ (by simp) rfl,
   (get_by_id_contract ⟨[⟨0, "A", "", [], [], 0, 0⟩], 1, 1⟩ 7 ⟨0, "A", "", [], [], 0, 0⟩).2.1
      (by decide),
   (get_by_id_contract ⟨[⟨0, "A", "", [], [], 0, 0⟩], 1, 1⟩ 7 ⟨0, "A", "", [], [], 0, 0⟩).2.2⟩

/-- C8: the bulk reset answers 200 and clears all stored notes, the GET
on the collection immediately afterwards answers 200 with the empty
sequence, and GET on the collection answers 200 in every state. -/
theorem reset_then_get_empty (st : ServerState) :
    (resetAll st).status = 200 ∧ (resetAll st).state.notes = [] ∧
    getAll (resetAll st).state = (200, []) ∧
    ∀ s : ServerState, (getAll s).1 = 200 := by
  exact ⟨rfl, rfl, rfl, fun s => rfl⟩

/-- C10: makeRequest is total over response bodies — it always returns
the raw status paired with a body, the body is JavaScript null whenever
the decoder fails on the body text (for instance an empty 204 body), and
it is the decoded JSON value when decoding succeeds. -/
theorem makeRequest_total (J : Type) (decode : String → Except String J)
    (resp : HttpResponse) (e : String) :
    (makeRequest decode resp).1 = resp.status ∧
    (decode resp.bodyText = .error e →
      makeRequest decode resp = (resp.status, .null)) ∧
    (∀ j : J, decode resp.bodyText = .ok j →
      makeRequest decode resp = (resp.status, .json j)) := by
  refine ⟨rfl, ?_, ?_⟩
  · intro h
    simp [makeRequest, h]
  · intro j h
    simp [makeRequest, h]

/-- C10 witness: a 204 response with an empty, undecodable body comes
back as the pair of status 204 and a null body. -/
theorem makeRequest_total_witness :
    makeRequest (J := Nat)
      (fun s => if s = "" then .error "unexpected end of input" else .ok 0)
      ⟨204, ""⟩ = (204, .null) :=
  (makeRequest_total Nat
      (fun s => if s = "" then .error "unexpected end of input" else .ok 0)
      ⟨204, ""⟩ "unexpected end of input").2.1 (by simp)

/-- C1: an accepted POST answers 200 with a body carrying the freshly
generated id and both timestamps, echoing tags and attachments exactly as
submitted (empty if omitted), and a GET on the returned id afterwards
reproduces the same title, content, tags and attachments. -/
theorem create_then_read_roundtrip (st : ServerState) (inp : NoteInput)
    (t : String) (hwf : WF st) (hv : validTitle inp.title = some t) :
    ∃ nt : Note,
      (createNote st inp).status = 200 ∧
      (createNote st inp).body = some nt ∧
      nt.id = st.nextId ∧ nt.createdAt = st.clock ∧ nt.updatedAt = st.clock ∧
      nt.title = t ∧ nt.content = inp.content.getD "" ∧
      nt.tags = inp.tags.getD [] ∧ nt.attachments = inp.attachments.getD [] ∧
      getNote (createNote st inp).state (.wellFormed nt.id) = (200, some nt) := by
  refine ⟨⟨st.nextId, t, inp.content.getD "", inp.tags.getD [],
    inp.attachments.getD [], st.clock, st.clock⟩,
    by simp [createNote, hv], by simp [createNote, hv],
    rfl, rfl, rfl, rfl, rfl, rfl, rfl, ?_⟩
  have hpre : ∀ a ∈ st.notes, ¬ (decide (a.id = st.nextId) = true) := by
    intro a ha
    have h1 := (hwf.1 a ha).1
    simp only [decide_eq_true_eq]
    omega
  simp only [createNote, hv, getNote, findNote]
  rw [find?_skip_head (fun m : Note => m.id = st.nextId) hpre]
  simp

/-- C1 witness: a concrete POST against the empty store is accepted and
read back identically through GET on the generated id. -/
theorem create_then_read_roundtrip_witness :
    ∃ nt : Note,
      (createNote ⟨[], 0, 0⟩ ⟨.str "A", some "c", some ["x"], none⟩).status = 200 ∧
      (createNote ⟨[], 0, 0⟩ ⟨.str "A", some "c", some ["x"], none⟩).body = some nt ∧
      nt.id = 0 ∧ nt.createdAt = 0 ∧ nt.updatedAt = 0 ∧
      nt.title = "A" ∧ nt.content = (some "c").getD "" ∧
      nt.tags = (some ["x"]).getD [] ∧ nt.attachments = (none : Option (List String)).getD [] ∧
      getNote (createNote ⟨[], 0, 0⟩ ⟨.str "A", some "c", some ["x"], none⟩).state
        (.wellFormed nt.id) = (200, some nt) :=
  create_then_read_roundtrip ⟨[], 0, 0⟩ ⟨.str "A", some "c", some ["x"], none⟩ "A"
    ⟨by simp, List.Pairwise.nil⟩ (by simp [validTitle])

/-- C3: deleting a stored id answers 200 and removes the record, so GET
and DELETE on that id afterwards answer 404 and the id is gone from the
collection listing; deleting an unresolved or malformed id answers 404
and changes nothing. -/
theorem delete_contract (st : ServerState) (n : Nat) :
    ((∃ nt ∈ st.notes, nt.id = n) →
      (deleteNote st (.wellFormed n)).status = 200 ∧
      getNote (deleteNote st (.wellFormed n)).state (.wellFormed n) = (404, none) ∧
      (deleteNote (deleteNote st (.wellFormed n)).state (.wellFormed n)).status = 404 ∧
      ∀ m ∈ (getAll (deleteNote st (.wellFormed n)).state).2, m.id ≠ n) ∧
    ((∀ nt ∈ st.notes, nt.id ≠ n) →
      (deleteNote st (.wellFormed n)).status = 404 ∧
      (deleteNote st (.wellFormed n)).state = st) ∧
    (deleteNote st .malformed).status = 404 := by
  refine ⟨?_, ?_, rfl⟩
  · rintro ⟨nt, hmem, hid⟩
    have hany : st.notes.any (fun m => m.id = n) = true :=
      List.any_eq_true.mpr ⟨nt, hmem, by simp [hid]⟩
    have hkept : ∀ m ∈ st.notes.filter (fun m => m.id ≠ n), m.id ≠ n := by
      intro m hm
      simpa using (List.mem_filter.mp hm).2
    have hdel : deleteNote st (.wellFormed n) =
        ⟨200, ⟨st.notes.filter (fun m => m.id ≠ n), st.nextId, st.clock⟩⟩ := by
      simp [deleteNote, hany]
    refine ⟨by rw [hdel], ?_, ?_, ?_⟩
    · have hnone :
          findNote ⟨st.notes.filter (fun m => m.id ≠ n), st.nextId, st.clock⟩ n = none := by
        rw [findNote, List.find?_eq_none]
        intro m hm
        simpa using hkept m hm
      rw [hdel]
      exact getNote_of_find_none hnone
    · have hany2 : (st.notes.filter (fun m => m.id ≠ n)).any (fun m => m.id = n) = false := by
        rw [List.any_eq_false]
        intro m hm
        simpa using hkept m hm
      rw [hdel]
      simp [deleteNote, hany2]
    · intro m hm
      rw [hdel] at hm
      exact hkept m (by simpa [getAll] using hm)
  · intro hnone
    have hany : st.notes.any (fun m => m.id = n) = false := by
      rw [List.any_eq_false]
      intro m hm
      simpa using hnone m hm
    simp [deleteNote, hany]

/-- C3 witness: in the concrete one-note store, deleting the stored id
answers 200 and empties it, the follow-up GET and DELETE on that id
answer 404, the listing no longer carries the id, and deleting an
unassigned or malformed id answers 404. -/
theorem delete_contract_witness :
    ((deleteNote ⟨[⟨0, "A", "", [], [], 0, 0⟩], 1, 1⟩ (.wellFormed 0)).status = 200 ∧
      getNote (deleteNote ⟨[⟨0, "A", "", [], [], 0, 0⟩], 1, 1⟩ (.wellFormed 0)).state
        (.wellFormed 0) = (404, none) ∧
      (deleteNote (deleteNote ⟨[⟨0, "A", "", [], [], 0, 0⟩], 1, 1⟩ (.wellFormed 0)).state
        (.wellFormed 0)).status = 404 ∧
      ∀ m ∈ (getAll (deleteNote ⟨[⟨0, "A", "", [], [], 0, 0⟩], 1, 1⟩ (.wellFormed 0)).state).2,
        m.id ≠ 0) ∧
    ((deleteNote ⟨[⟨0, "A", "", [], [], 0, 0⟩], 1, 1⟩ (.wellFormed 9)).status = 404 ∧
      (deleteNote ⟨[⟨0, "A", "", [], [], 0, 0⟩], 1, 1⟩ (.wellFormed 9)).state =
        ⟨[⟨0, "A", "", [], [], 0, 0⟩], 1, 1⟩) ∧
    (deleteNote ⟨[⟨0, "A", "", [], [], 0, 0⟩], 1, 1⟩ .malformed).status = 404 :=
  ⟨(delete_contract ⟨[⟨0, "A", "", [], [], 0, 0⟩], 1, 1⟩ 0).1
      ⟨⟨0, "A", "", [], [], 0, 0⟩, by simp, rfl⟩,
   (delete_contract ⟨[⟨0, "A", "", [], [], 0, 0⟩], 1, 1⟩ 9).2.1 (by decide),
   (delete_contract ⟨[⟨0, "A", "", [], [], 0, 0⟩], 1, 1⟩ 9).2.2⟩

/-- A POST with a valid title produces exactly the stored note and the
extended state. -/
theorem createNote_valid (st : ServerState) (inp : NoteInput) (t : String)
    (h : validTitle inp.title = some t) :
    createNote st inp =
      ⟨200,
       some ⟨st.nextId, t, inp.content.getD "", inp.tags.getD [],
         inp.attachments.getD [], st.clock, st.clock⟩,
       ⟨st.notes ++ [⟨st.nextId, t, inp.content.getD "", inp.tags.getD [],
         inp.attachments.getD [], st.clock, st.clock⟩],
        st.nextId + 1, st.clock + 1⟩⟩ := by
  simp [createNote, h]

/-- C9: creating three notes in a row answers 200 each time, hands back
three pairwise-distinct ids, and leaves a collection listing of length
exactly three more than before — in particular at least 3 — in which all
three returned ids are present; no creation removed any other note. -/
theorem create_three_all_present (st : ServerState) (i1 i2 i3 : NoteInput)
    (t1 t2 t3 : String)
    (h1 : validTitle i1.title = some t1) (h2 : validTitle i2.title = some t2)
    (h3 : validTitle i3.title = some t3) :
    ∃ n1 n2 n3 : Nat,
      (createNote st i1).status = 200 ∧
      (createNote (createNote st i1).state i2).status = 200 ∧
      (createNote (createNote (createNote st i1).state i2).state i3).status = 200 ∧
      Option.map Note.id (createNote st i1).body = some n1 ∧
      Option.map Note.id (createNote (createNote st i1).state i2).body = some n2 ∧
      Option.map Note.id
        (createNote (createNote (createNote st i1).state i2).state i3).body = some n3 ∧
      n1 ≠ n2 ∧ n1 ≠ n3 ∧ n2 ≠ n3 ∧
      (getAll (createNote (createNote (createNote st i1).state i2).state i3).state).2.length =
        st.notes.length + 3 ∧
      3 ≤ (getAll (createNote (createNote (createNote st i1).state i2).state i3).state).2.length ∧
      (∃ m ∈ (getAll (createNote (createNote (createNote st i1).state i2).state i3).state).2,
        m.id = n1) ∧
      (∃ m ∈ (getAll (createNote (createNote (createNote st i1).state i2).state i3).state).2,
        m.id = n2) ∧
      (∃ m ∈ (getAll (createNote (createNote (createNote st i1).state i2).state i3).state).2,
        m.id = n3) := by
  refine ⟨st.nextId, st.nextId + 1, st.nextId + 1 + 1, ?_⟩
  rw [createNote_valid _ _ _ h1, createNote_valid _ _ _ h2, createNote_valid _ _ _ h3]
  refine ⟨rfl, rfl, rfl, rfl, rfl, rfl, by omega, by omega, by omega, ?_, ?_, ?_, ?_, ?_⟩
  · simp [getAll]
  · simp [getAll]
  · exact ⟨⟨st.nextId, t1, i1.content.getD "", i1.tags.getD [],
      i1.attachments.getD [], st.clock, st.clock⟩, by simp [getAll], rfl⟩
  · exact ⟨⟨st.nextId + 1, t2, i2.content.getD "", i2.tags.getD [],
      i2.attachments.getD [], st.clock + 1, st.clock + 1⟩, by simp [getAll], rfl⟩
  · exact ⟨⟨st.nextId + 1 + 1, t3, i3.content.getD "", i3.tags.getD [],
      i3.attachments.getD [], st.clock + 1 + 1, st.clock + 1 + 1⟩, by simp [getAll], rfl⟩

/-- C9 witness: three concrete creates against the empty store answer 200
with the distinct ids 0, 1 and 2, and the listing of length 3 carries all
of them. -/
theorem create_three_all_present_witness :
    ∃ n1 n2 n3 : Nat,
      (createNote ⟨[], 0, 0⟩ ⟨.str "A", none, none, none⟩).status = 200 ∧
      (createNote (createNote ⟨[], 0, 0⟩ ⟨.str "A", none, none, none⟩).state
        ⟨.str "B", none, none, none⟩).status = 200 ∧
      (createNote (createNote (createNote ⟨[], 0, 0⟩ ⟨.str "A", none, none, none⟩).state
        ⟨.str "B", none, none, none⟩).state ⟨.str "C", none, none, none⟩).status = 200 ∧
      Option.map Note.id (createNote ⟨[], 0, 0⟩ ⟨.str "A", none, none, none⟩).body = some n1 ∧
      Option.map Note.id (createNote (createNote ⟨[], 0, 0⟩ ⟨.str "A", none, none, none⟩).state
        ⟨.str "B", none, none, none⟩).body = some n2 ∧
      Option.map Note.id
        (createNote (createNote (createNote ⟨[], 0, 0⟩ ⟨.str "A", none, none, none⟩).state
          ⟨.str "B", none, none, none⟩).state ⟨.str "C", none, none, none⟩).body = some n3 ∧
      n1 ≠ n2 ∧ n1 ≠ n3 ∧ n2 ≠ n3 ∧
      (getAll (createNote (createNote (createNote ⟨[], 0, 0⟩ ⟨.str "A", none, none, none⟩).state
        ⟨.str "B", none, none, none⟩).state ⟨.str "C", none, none, none⟩).state).2.length =
        ([] : List Note).length + 3 ∧
      3 ≤ (getAll (createNote (createNote (createNote ⟨[], 0, 0⟩ ⟨.str "A", none, none, none⟩).state
        ⟨.str "B", none, none, none⟩).state ⟨.str "C", none, none, none⟩).state).2.length ∧
      (∃ m ∈ (getAll (createNote (createNote (createNote ⟨[], 0, 0⟩ ⟨.str "A", none, none, none⟩).state
        ⟨.str "B", none, none, none⟩).state ⟨.str "C", none, none, none⟩).state).2, m.id = n1) ∧
      (∃ m ∈ (getAll (createNote (createNote (createNote ⟨[], 0, 0⟩ ⟨.str "A", none, none, none⟩).state
        ⟨.str "B", none, none, none⟩).state ⟨.str "C", none, none, none⟩).state).2, m.id = n2) ∧
      (∃ m ∈ (getAll (createNote (createNote (createNote ⟨[], 0, 0⟩ ⟨.str "A", none, none, none⟩).state
        ⟨.str "B", none, none, none⟩).state ⟨.str "C", none, none, none⟩).state).2, m.id = n3) :=
  create_three_all_present ⟨[], 0, 0⟩ ⟨.str "A", none, none, none⟩
    ⟨.str "B", none, none, none⟩ ⟨.str "C", none, none, none⟩ "A" "B" "C"
    (by simp [validTitle]) (by simp [validTitle]) (by simp [validTitle])

/-- C4: in every reachable service state every persisted note has a
non-empty title, and an update whose resulting title would be empty is
rejected with 400 and leaves the whole store — in particular the
addressed note — unchanged. -/
theorem title_never_empty (st : ServerState) (n : Nat) (nt : Note) (inp : NoteInput) :
    (Reachable st → ∀ m ∈ st.notes, m.title ≠ "") ∧
    (findNote st n = some nt → inp.title = .str "" →
      (updateNote st (.wellFormed n) inp).status = 400 ∧
      (updateNote st (.wellFormed n) inp).state = st) := by
  constructor
  · intro hr m hm
    exact ((reachable_wf st hr).1 m hm).2.1
  · intro hf ht
    have hres : resultTitle nt.title inp.title = none := by
      simp [ht, resultTitle]
    constructor <;> simp [updateNote, hf, hres]

/-- C4 witness: the reachable one-note state keeps its non-empty title,
and the concrete empty-title update against it is answered 400 with the
state unchanged. -/
theorem title_never_empty_witness :
    (∀ m ∈ (createNote ⟨[], 0, 0⟩ ⟨.str "A", none, none, none⟩).state.notes, m.title ≠ "") ∧
    (updateNote (createNote ⟨[], 0, 0⟩ ⟨.str "A", none, none, none⟩).state (.wellFormed 0)
      ⟨.str "", none, none, none⟩).status = 400 ∧
    (updateNote (createNote ⟨[], 0, 0⟩ ⟨.str "A", none, none, none⟩).state (.wellFormed 0)
      ⟨.str "", none, none, none⟩).state =
      (createNote ⟨[], 0, 0⟩ ⟨.str "A", none, none, none⟩).state :=
  ⟨(title_never_empty (createNote ⟨[], 0, 0⟩ ⟨.str "A", none, none, none⟩).state 0
      ⟨0, "A", "", [], [], 0, 0⟩ ⟨.str "", none, none, none⟩).1
      (.create ⟨[], 0, 0⟩ ⟨.str "A", none, none, none⟩ .init),
   (title_never_empty (createNote ⟨[], 0, 0⟩ ⟨.str "A", none, none, none⟩).state 0
      ⟨0, "A", "", [], [], 0, 0⟩ ⟨.str "", none, none, none⟩).2
      (by decide) rfl⟩

/-- C5: in every reachable state createdAt ≤ updatedAt holds for every
persisted note; creation assigns both timestamps the current clock; a
successful update keeps the addressed note's createdAt, sets its
updatedAt to the current clock (strictly above its previous updatedAt in
a reachable state); and no update changes any stored note's createdAt. -/
theorem timestamps_contract (st : ServerState) (n : Nat) (nt : Note)
    (inp : NoteInput) (t : String) :
    (Reachable st → ∀ m ∈ st.notes, m.createdAt ≤ m.updatedAt) ∧
    (∀ m : Note, (createNote st inp).body = some m →
      m.createdAt = st.clock ∧ m.updatedAt = st.clock) ∧
    (findNote st n = some nt → resultTitle nt.title inp.title = some t →
      (updateNote st (.wellFormed n) inp).body = some (applyUpdate nt inp st.clock t) ∧
      (applyUpdate nt inp st.clock t).createdAt = nt.createdAt ∧
      (applyUpdate nt inp st.clock t).updatedAt = st.clock ∧
      (Reachable st → nt.updatedAt < st.clock)) ∧
    (∀ m2 ∈ (updateNote st (.wellFormed n) inp).state.notes,
      ∃ m ∈ st.notes, m2.id = m.id ∧ m2.createdAt = m.createdAt) := by
  refine ⟨?_, ?_, ?_, ?_⟩
  · intro hr m hm
    exact ((reachable_wf st hr).1 m hm).2.2.1
  · intro m hm
    cases hv : validTitle inp.title with
    | none => simp [createNote, hv] at hm
    | some s =>
      rw [createNote_valid st inp s hv] at hm
      simp only [Option.some_inj] at hm
      subst hm
      exact ⟨rfl, rfl⟩
  · intro hf ht
    refine ⟨by simp [updateNote, hf, ht], rfl, rfl, ?_⟩
    intro hr
    exact ((reachable_wf st hr).1 nt (List.mem_of_find?_eq_some hf)).2.2.2
  · intro m2 hm2
    cases hf : findNote st n with
    | none =>
      refine ⟨m2, ?_, rfl, rfl⟩
      simpa [updateNote, hf] using hm2
    | some m1 =>
      cases ht : resultTitle m1.title inp.title with
      | none =>
        refine ⟨m2, ?_, rfl, rfl⟩
        simpa [updateNote, hf, ht] using hm2
      | some s =>
        simp only [updateNote, hf, ht, List.mem_map] at hm2
        obtain ⟨m, hm, hfm⟩ := hm2
        subst hfm
        by_cases hc : m.id = n
        · have hm1id : m1.id = n := by simpa using List.find?_some hf
          refine ⟨m1, List.mem_of_find?_eq_some hf, ?_, ?_⟩
          · simp [hc, applyUpdate, hm1id]
          · simp [hc, applyUpdate]
        · exact ⟨m, hm, by simp [hc], by simp [hc]⟩

/-- C5 witness: in the reachable one-note state the timestamps are
ordered; the concrete create stamps both timestamps with the clock; the
concrete update keeps createdAt 0, refreshes updatedAt to the clock 1,
strictly above the old 0; and the update changes no stored createdAt. -/
theorem timestamps_contract_witness :
    (∀ m ∈ (createNote ⟨[], 0, 0⟩ ⟨.str "A", none, none, none⟩).state.notes,
      m.createdAt ≤ m.updatedAt) ∧
    (∀ m : Note,
      (createNote (createNote ⟨[], 0, 0⟩ ⟨.str "A", none, none, none⟩).state
        ⟨.str "B", none, none, none⟩).body = some m →
      m.createdAt = (createNote ⟨[], 0, 0⟩ ⟨.str "A", none, none, none⟩).state.clock ∧
      m.updatedAt = (createNote ⟨[], 0, 0⟩ ⟨.str "A", none, none, none⟩).state.clock) ∧
    ((updateNote (createNote ⟨[], 0, 0⟩ ⟨.str "A", none, none, none⟩).state (.wellFormed 0)
        ⟨.str "B", none, none, none⟩).body =
      some (applyUpdate ⟨0, "A", "", [], [], 0, 0⟩ ⟨.str "B", none, none, none⟩
        (createNote ⟨[], 0, 0⟩ ⟨.str "A", none, none, none⟩).state.clock "B") ∧
      (applyUpdate ⟨0, "A", "", [], [], 0, 0⟩ ⟨.str "B", none, none, none⟩
        (createNote ⟨[], 0, 0⟩ ⟨.str "A", none, none, none⟩).state.clock "B").createdAt = 0 ∧
      (applyUpdate ⟨0, "A", "", [], [], 0, 0⟩ ⟨.str "B", none, none, none⟩
        (createNote ⟨[], 0, 0⟩ ⟨.str "A", none, none, none⟩).state.clock "B").updatedAt =
        (createNote ⟨[], 0, 0⟩ ⟨.str "A", none, none, none⟩).state.clock ∧
      (0 : Nat) < (createNote ⟨[], 0, 0⟩ ⟨.str "A", none, none, none⟩).state.clock) ∧
    (∀ m2 ∈ (updateNote (createNote ⟨[], 0, 0⟩ ⟨.str "A", none, none, none⟩).state
        (.wellFormed 0) ⟨.str "B", none, none, none⟩).state.notes,
      ∃ m ∈ (createNote ⟨[], 0, 0⟩ ⟨.str "A", none, none, none⟩).state.notes,
        m2.id = m.id ∧ m2.createdAt = m.createdAt) := by
  have h := timestamps_contract (createNote ⟨[], 0, 0⟩ ⟨.str "A", none, none, none⟩).state 0
    ⟨0, "A", "", [], [], 0, 0⟩ ⟨.str "B", none, none, none⟩ "B"
  have hreach : Reachable (createNote ⟨[], 0, 0⟩ ⟨.str "A", none, none, none⟩).state :=
    .create ⟨[], 0, 0⟩ ⟨.str "A", none, none, none⟩ .init
  have h3 := h.2.2.1 (by decide) (by decide)
  exact ⟨h.1 hreach, h.2.1, ⟨h3.1, h3.2.1, h3.2.2.1, h3.2.2.2 hreach⟩, h.2.2.2⟩

/-- C7: the harness issues PUT first and retries once with PATCH exactly
when PUT answers 404 or 405; when the unsupported-verb status is one of
404/405, an update of a stored note that carries a valid resulting title
ends in a successful 200-or-204 final response; and an update addressed
to a well-formed but unresolved id draws 404 from the supported verb. -/
theorem update_fallback_contract (cfg : ServiceCfg) (st : ServerState)
    (rid : ReqId) (inp : NoteInput) (n : Nat) (nt : Note) (t : String) :
    (¬ ((dispatchUpdate cfg .put st rid inp).status = 404 ∨
        (dispatchUpdate cfg .put st rid inp).status = 405) →
      harnessUpdate cfg st rid inp = dispatchUpdate cfg .put st rid inp) ∧
    (((dispatchUpdate cfg .put st rid inp).status = 404 ∨
        (dispatchUpdate cfg .put st rid inp).status = 405) →
      harnessUpdate cfg st rid inp =
        dispatchUpdate cfg .patch (dispatchUpdate cfg .put st rid inp).state rid inp) ∧
    ((cfg.unsupported = 404 ∨ cfg.unsupported = 405) →
      findNote st n = some nt → resultTitle nt.title inp.title = some t →
      ((harnessUpdate cfg st (.wellFormed n) inp).status = 200 ∨
        (harnessUpdate cfg st (.wellFormed n) inp).status = 204)) ∧
    (findNote st n = none →
      (dispatchUpdate cfg cfg.impl st (.wellFormed n) inp).status = 404) := by
  refine ⟨?_, ?_, ?_, ?_⟩
  · intro h
    simp [harnessUpdate, h]
  · intro h
    simp [harnessUpdate, h]
  · intro hu hf ht
    have hupd : (updateNote st (.wellFormed n) inp).status = 200 := by
      simp [updateNote, hf, ht]
    cases hw : cfg.impl with
    | put =>
      have hput : dispatchUpdate cfg .put st (.wellFormed n) inp =
          updateNote st (.wellFormed n) inp := by
        simp [dispatchUpdate, hw]
      left
      simp [harnessUpdate, hput, hupd]
    | patch =>
      have hput : dispatchUpdate cfg .put st (.wellFormed n) inp =
          ⟨cfg.unsupported, none, st⟩ := by
        simp [dispatchUpdate, hw]
      have hpatch : dispatchUpdate cfg .patch st (.wellFormed n) inp =
          updateNote st (.wellFormed n) inp := by
        simp [dispatchUpdate, hw]
      left
      simp only [harnessUpdate, hput]
      rcases hu with hu | hu <;> simp [hu, hpatch, hupd]
  · intro hf
    have hself : dispatchUpdate cfg cfg.impl st (.wellFormed n) inp =
        updateNote st (.wellFormed n) inp := by
      simp [dispatchUpdate]
    rw [hself]
    simp [updateNote, hf]

/-- C7 witness: with a PATCH-only service answering 405 on PUT, the
harness update of the concrete stored note ends with status 200, and the
supported verb answers 404 on the unassigned id 5. -/
theorem update_fallback_contract_witness :
    ((harnessUpdate ⟨.patch, 405⟩ ⟨[⟨0, "A", "", [], [], 0, 0⟩], 1, 1⟩ (.wellFormed 0)
        ⟨.str "B", none, none, none⟩).status = 200 ∨
      (harnessUpdate ⟨.patch, 405⟩ ⟨[⟨0, "A", "", [], [], 0, 0⟩], 1, 1⟩ (.wellFormed 0)
        ⟨.str "B", none, none, none⟩).status = 204) ∧
    (dispatchUpdate ⟨.patch, 405⟩ (⟨.patch, 405⟩ : ServiceCfg).impl
      ⟨[⟨0, "A", "", [], [], 0, 0⟩], 1, 1⟩ (.wellFormed 5)
      ⟨.str "B", none, none, none⟩).status = 404 :=
  ⟨(update_fallback_contract ⟨.patch, 405⟩ ⟨[⟨0, "A", "", [], [], 0, 0⟩], 1, 1⟩
      (.wellFormed 0) ⟨.str "B", none, none, none⟩ 0 ⟨0, "A", "", [], [], 0, 0⟩ "B").2.2.1
      (Or.inr rfl) (by decide) (by decide),
   (update_fallback_contract ⟨.patch, 405⟩ ⟨[⟨0, "A", "", [], [], 0, 0⟩], 1, 1⟩
      (.wellFormed 5) ⟨.str "B", none, none, none⟩ 5 ⟨0, "A", "", [], [], 0, 0⟩ "B").2.2.2
      (by decide)⟩

end NoteApp
